import Mathlib

/-!
Verification development for the cc-forwarder-desktop proxy core.

The definitions below are a shallow embedding of the Go sources:
`internal/proxy/error_recovery.go`, `internal/endpoint/failover.go`,
`internal/endpoint/key_switch.go`, `internal/endpoint/notification.go`,
and the endpoint selection / CRUD file (endpoint_selection.go /
endpoint_crud.go).  Go `time.Time` and `time.Duration` are modelled as
`Int` (nanoseconds; the zero `time.Time` is `0`), Go strings as Lean
`String` (character based), machine integers as `Int` or `Nat` where the
program only ever holds non-negative values (attempt counters).
-/

namespace CCF

/-! ## String helpers mirroring Go strings.Contains / HasPrefix / ToLower -/

/-- Substring occurrence on character lists: `pat` occurs somewhere in `s`. -/
def listContainsSub (pat : List Char) : List Char → Bool
  | [] => pat.isEmpty
  | c :: rest => List.isPrefixOf pat (c :: rest) || listContainsSub pat rest

/-- Model of Go `strings.Contains s pat`. -/
def strContains (s pat : String) : Bool :=
  listContainsSub pat.data s.data

/-- Model of Go `strings.HasPrefix s pat`. -/
def strHasPre (s pat : String) : Bool :=
  List.isPrefixOf pat.data s.data

/-- Model of Go `strings.ToLower` (ASCII lowering suffices for the
classifier patterns, which are all ASCII). -/
def lowerStr (s : String) : String :=
  String.mk (s.data.map Char.toLower)

/-- Does any of the patterns occur in `s`?  Mirrors the Go loops over a
slice of candidate substrings. -/
def containsAnySub (s : String) : List String → Bool
  | [] => false
  | p :: ps => strContains s p || containsAnySub s ps

/-! ## Error model (error_recovery.go)

A Go `error` value is modelled by its `Error()` text plus the identity
facts that `errors.Is` / `errors.As` can observe and that the classifier
queries: `context.Canceled`, `io.EOF` / `io.ErrUnexpectedEOF`,
`context.DeadlineExceeded`, `http.ErrHandlerTimeout`, a wrapped
`net.OpError` (its `Op` and `Timeout()`), a wrapped `net.DNSError`, and a
wrapped `syscall.Errno`. -/

structure NetOpInfo where
  op : String
  isTimeout : Bool
deriving DecidableEq

structure GoError where
  text : String
  isCanceledIdent : Bool
  isEOFIdent : Bool
  isDeadlineIdent : Bool
  isHandlerTimeoutIdent : Bool
  netOpErr : Option NetOpInfo
  isDNSErr : Bool
  syscallErrno : Option Nat
deriving DecidableEq

/-- An error that wraps nothing: only its text is observable. -/
def plainErr (s : String) : GoError :=
  ⟨s, false, false, false, false, none, false, none⟩

def ECONNREFUSED : Nat := 111
def ECONNRESET : Nat := 104
def ENETUNREACH : Nat := 101
def EHOSTUNREACH : Nat := 113
def ETIMEDOUT : Nat := 110

/-- Model of `ErrorType` enumeration from error_recovery.go. -/
inductive ErrorType where
  | unknown
  | network
  | eof
  | connectionTimeout
  | responseTimeout
  | timeout
  | http
  | serverError
  | stream
  | auth
  | rateLimit
  | parsing
  | clientCancel
  | noHealthyEndpoints
deriving DecidableEq

/-- Model of `isClientCancelError`: identity check for `context.Canceled`, then the
string patterns. -/
def isClientCancelError (e : GoError) : Bool :=
  e.isCanceledIdent ||
  containsAnySub (lowerStr e.text)
    ["context canceled", "canceled", "client disconnected",
     "connection closed by client", "client gone away"]

/-- Model of `isEOFError`: identity check for `io.EOF` / `io.ErrUnexpectedEOF`, then
the string patterns. -/
def isEOFError (e : GoError) : Bool :=
  e.isEOFIdent ||
  containsAnySub (lowerStr e.text) ["eof", "unexpected eof"]

/-- Model of `isConnectionTimeoutError`: dial-phase timeout patterns, then a
`net.OpError` whose op is dial and which reports a timeout. -/
def isConnectionTimeoutError (e : GoError) : Bool :=
  containsAnySub (lowerStr e.text)
    ["dial timeout", "dial tcp", "connection timed out",
     "connect timeout", "dial i/o timeout"] ||
  (match e.netOpErr with
   | some info => info.op == "dial" && info.isTimeout
   | none => false)

/-- Model of `isTimeoutError`: `context.DeadlineExceeded`, `http.ErrHandlerTimeout`,
`syscall.ETIMEDOUT`, then the string patterns. -/
def isTimeoutError (e : GoError) : Bool :=
  e.isDeadlineIdent || e.isHandlerTimeoutIdent ||
  (match e.syscallErrno with
   | some n => n == ETIMEDOUT
   | none => false) ||
  containsAnySub (lowerStr e.text)
    ["timeout", "deadline exceeded", "context deadline exceeded",
     "i/o timeout", "read timeout", "write timeout", "operation timed out"]

/-- Model of `isNetworkError`: a wrapped `net.OpError` decides immediately (false
when it is a timeout); otherwise DNS errors, the listed syscall errnos,
then the string patterns. -/
def isNetworkError (e : GoError) : Bool :=
  match e.netOpErr with
  | some info => !info.isTimeout
  | none =>
    e.isDNSErr ||
    (match e.syscallErrno with
     | some n => n == ECONNREFUSED || n == ECONNRESET ||
                 n == ENETUNREACH || n == EHOSTUNREACH
     | none => false) ||
    containsAnySub (lowerStr e.text)
      ["connection reset", "connection refused", "connection closed",
       "network is unreachable", "no route to host", "broken pipe",
       "upstream connect", "connect error", "stream reset"]

/-- The rate-limit branch condition of `ClassifyError` (applied to the
lower-cased error text), clause for clause. -/
def rateLimitText (s : String) : Bool :=
  strContains s "rate" || strContains s "429" ||
  strContains s "quota" || strContains s "limit" ||
  strContains s "endpoint returned error: 429" ||
  strContains s "endpoint returned error: 400" ||
  strContains s "400" ||
  strContains s "too many requests" || strContains s "rate_limit" ||
  strContains s "throttle" || strContains s "quota exceeded"

/-- The server-error (5xx) branch condition of `ClassifyError`. -/
def serverErrorText (s : String) : Bool :=
  strContains s "endpoint returned error: 5" ||
  strContains s "500" || strContains s "501" ||
  strContains s "502" || strContains s "503" ||
  strContains s "504" || strContains s "505" ||
  strContains s "520" || strContains s "521" ||
  strContains s "522" || strContains s "523" ||
  strContains s "524" || strContains s "525"

/-- The auth branch condition of `ClassifyError`. -/
def authText (s : String) : Bool :=
  strContains s "auth" || strContains s "unauthorized" || strContains s "401"

/-- The stream branch condition of `ClassifyError`. -/
def streamText (s : String) : Bool :=
  strHasPre s "stream_status:" ||
  strContains s "streaming not supported" ||
  strContains s "stream_error" ||
  strContains s "sse" ||
  strContains s "event-stream" ||
  strContains s "stream parsing"

/-- The generic HTTP branch condition of `ClassifyError` (non-5xx,
non-429, non-400). -/
def httpText (s : String) : Bool :=
  (strContains s "http" || strContains s "status" ||
   strContains s "endpoint returned error") &&
  !strContains s "endpoint returned error: 5" &&
  !strContains s "429" && !strContains s "rate" &&
  !strContains s "400" && !strContains s "endpoint returned error: 400"

/-- The classification cascade of `ClassifyError` (error_recovery.go,
lines 87-227), branch for branch in source order, for a non-nil error. -/
def classifyErrorType (e : GoError) : ErrorType :=
  let errStr := lowerStr e.text
  if isClientCancelError e then ErrorType.clientCancel
  else if isEOFError e then ErrorType.eof
  else if isConnectionTimeoutError e then ErrorType.connectionTimeout
  else if isTimeoutError e then ErrorType.responseTimeout
  else if isNetworkError e then ErrorType.network
  else if rateLimitText errStr then ErrorType.rateLimit
  else if serverErrorText errStr then ErrorType.serverError
  else if authText errStr then ErrorType.auth
  else if streamText errStr then
    (if strContains errStr "streaming not supported" then ErrorType.unknown
     else ErrorType.stream)
  else if httpText errStr then ErrorType.http
  else if strContains errStr "no healthy endpoints available" then
    ErrorType.noHealthyEndpoints
  else ErrorType.unknown

/-- Model of `ErrorContext` (the retry-delay suggestion field is not modelled; no
claim depends on it). -/
structure ErrorContext where
  requestID : String
  endpointName : String
  groupName : String
  attemptCount : Nat
  maxRetries : Nat
  errorType : ErrorType
deriving DecidableEq

/-- Model of `ErrorRecoveryManager` (the backoff-delay fields are not modelled; no
claim depends on them). -/
structure ErrorRecoveryManager where
  maxRetries : Nat
deriving DecidableEq

/-- Model of `NewErrorRecoveryManager`: default retry policy. -/
def newErrorRecoveryManager : ErrorRecoveryManager :=
  { maxRetries := 3 }

/-- Model of `ClassifyError`: builds the context (with the managers `maxRetries`)
and classifies a possibly-nil error; a nil error is `Unknown`. -/
def classifyError (erm : ErrorRecoveryManager) (err : Option GoError)
    (requestID endpointName groupName : String) (attempt : Nat) : ErrorContext :=
  { requestID := requestID
    endpointName := endpointName
    groupName := groupName
    attemptCount := attempt
    maxRetries := erm.maxRetries
    errorType :=
      match err with
      | none => ErrorType.unknown
      | some e => classifyErrorType e }

/-- Model of `ShouldRetry` (error_recovery.go, lines 231-307): the attempts cap is
checked first, then the per-kind verdicts. -/
def shouldRetry (ctx : ErrorContext) : Bool :=
  if ctx.maxRetries ≤ ctx.attemptCount then false
  else
    match ctx.errorType with
    | ErrorType.clientCancel => false
    | ErrorType.eof => false
    | ErrorType.responseTimeout => false
    | ErrorType.timeout => false
    | ErrorType.connectionTimeout => true
    | ErrorType.network => true
    | ErrorType.serverError => true
    | ErrorType.stream => false
    | ErrorType.http => false
    | ErrorType.rateLimit => true
    | ErrorType.auth => false
    | ErrorType.parsing => true
    | _ => false

/-- The terminal status string chosen by `HandleFinalFailure`
(error_recovery.go, lines 346-364). -/
def finalFailureStatus : ErrorType → String
  | ErrorType.clientCancel => "cancelled"
  | ErrorType.timeout => "timeout"
  | ErrorType.responseTimeout => "timeout"
  | ErrorType.connectionTimeout => "connection_timeout"
  | ErrorType.eof => "eof_interrupted"
  | ErrorType.auth => "auth_error"
  | ErrorType.rateLimit => "rate_limited"
  | ErrorType.serverError => "server_error"
  | ErrorType.stream => "stream_error"
  | _ => "error"

/-- The request record fields touched by the recovery manager. -/
structure RequestRecord where
  status : String
  endpointName : String
  groupName : String
  retryCount : Nat
  httpStatus : Int
deriving DecidableEq

/-- Model of `HandleFinalFailure`: when a usage tracker is attached and the request
id is non-empty, the request record is patched with the terminal status,
endpoint, group, retry count and http status 0. -/
def handleFinalFailure (hasTracker : Bool) (ctx : ErrorContext)
    (rec : RequestRecord) : RequestRecord :=
  if hasTracker && !(ctx.requestID == "") then
    { rec with
      status := finalFailureStatus ctx.errorType
      endpointName := ctx.endpointName
      groupName := ctx.groupName
      retryCount := ctx.attemptCount
      httpStatus := 0 }
  else rec

/-! ## Endpoint data model (internal/endpoint) -/

/-- A named credential entry (`{name, value}` token or api key). -/
structure KeyEntry where
  name : String
  value : String
deriving DecidableEq

/-- Model of `config.EndpointConfig` (the fields the verified operations touch;
cost multiplier, header map and the count-tokens flag are omitted — no
claim depends on them).  `cooldown` is a duration in nanoseconds. -/
structure EndpointConfig where
  name : String
  url : String
  channel : String
  group : String
  priority : Int
  tokens : List KeyEntry
  apiKeys : List KeyEntry
  token : String
  apiKey : String
  failoverEnabled : Option Bool
  cooldown : Option Int
deriving DecidableEq

/-- Model of `EndpointStatus` (times are `Int` nanoseconds, the zero time is 0). -/
structure EndpointStatus where
  healthy : Bool
  neverChecked : Bool
  lastCheck : Int
  responseTime : Int
  consecutiveFails : Nat
  cooldownUntil : Int
  cooldownReason : String
deriving DecidableEq

structure Endpoint where
  config : EndpointConfig
  status : EndpointStatus
deriving DecidableEq

/-- The inline cooldown test used throughout the manager:
`!Status.CooldownUntil.IsZero() && now.Before(Status.CooldownUntil)`. -/
def inCooldownAt (s : EndpointStatus) (now : Int) : Bool :=
  !(s.cooldownUntil == 0) && decide (now < s.cooldownUntil)

/-- Modelled from the spec: the Group Manager state (the Group Manager
implementation is not among the provided sources).  Groups are keyed by
name; a group is listed in `activeGroups` when operator-activated and in
`pausedGroups` when manually paused (spec 4.C). -/
structure GroupManager where
  groups : List String
  activeGroups : List String
  pausedGroups : List String
deriving DecidableEq

/-- Modelled from the spec: `GroupManager.FilterEndpointsByActiveGroups`
returns only endpoints whose group is active and not paused (spec 4.C). -/
def filterEndpointsByActiveGroups (gm : GroupManager) (l : List Endpoint) :
    List Endpoint :=
  l.filter fun e =>
    gm.activeGroups.contains e.config.group &&
    !(gm.pausedGroups.contains e.config.group)

/-- Modelled from the spec: `GroupManager.ManualActivateGroup` fails for an
unknown group and otherwise makes that group the (exclusively) active one
(spec 4.C: activation is exclusive at group granularity in the default
policy). -/
def gmManualActivateGroup (gm : GroupManager) (g : String) :
    Except String GroupManager :=
  if gm.groups.contains g then
    Except.ok { gm with activeGroups := [g] }
  else
    Except.error "group not found"

/-- Modelled from the spec: `GroupManager.DeactivateGroup` removes the
group of the failed endpoint from the active set (failover step 2,
spec 4.F); in this code base groups are keyed by endpoint name. -/
def gmDeactivateGroup (gm : GroupManager) (g : String) : GroupManager :=
  { gm with activeGroups := gm.activeGroups.filter fun x => !(x == g) }

structure StrategyConfig where
  strategyType : String
deriving DecidableEq

structure FailoverConfig where
  enabled : Bool
  defaultCooldown : Int
deriving DecidableEq

structure ManagerConfig where
  strategy : StrategyConfig
  failover : FailoverConfig
deriving DecidableEq

/-- The endpoint `Manager`: the endpoint list (snapshots of which the Go
code copies under a read lock), the configuration, and the group-manager
state. -/
structure Manager where
  endpoints : List Endpoint
  config : ManagerConfig
  groupManager : GroupManager
deriving DecidableEq

/-- Model of `GetEndpointByNameAny`: first endpoint with the given name, from all
endpoints, ignoring group status. -/
def getEndpointByNameAny (m : Manager) (name : String) : Option Endpoint :=
  m.endpoints.find? fun ep => ep.config.name == name

/-! ## sort.Slice model

`sort.Slice` with comparator `less` is modelled by the left-to-right
insertion sort that the Go standard library performs on short slices
(`pdqsort` falls back to insertion sort below 13 elements); each element
is inserted before the first earlier element `y` with `less x y`.  The
theorems below rely only on the output being a permutation that is sorted
under the comparator, which holds for `sort.Slice` at every length. -/

def insertBy (lt : α → α → Bool) (x : α) : List α → List α
  | [] => [x]
  | y :: ys => if lt x y then x :: y :: ys else y :: insertBy lt x ys

def sortSlice (lt : α → α → Bool) (l : List α) : List α :=
  l.foldl (fun acc x => insertBy lt x acc) []

/-- The comparator of the priority strategy:
`healthy[i].Config.Priority < healthy[j].Config.Priority`. -/
def priorityLess (a b : Endpoint) : Bool :=
  decide (a.config.priority < b.config.priority)

/-- The comparator of the fastest strategy:
`healthy[i].Status.ResponseTime < healthy[j].Status.ResponseTime`. -/
def responseTimeLess (a b : Endpoint) : Bool :=
  decide (a.status.responseTime < b.status.responseTime)

/-- Model of `sortHealthyEndpoints` (endpoint_selection.go, lines 108-138): sorts
by strategy; any other strategy leaves the list as is.  (The `showLogs`
argument only controls logging and is not modelled.) -/
def sortHealthyEndpoints (m : Manager) (healthy : List Endpoint) :
    List Endpoint :=
  if m.config.strategy.strategyType == "priority" then
    sortSlice priorityLess healthy
  else if m.config.strategy.strategyType == "fastest" then
    sortSlice responseTimeLess healthy
  else healthy

/-- Model of `getFailoverEndpoints` (endpoint_selection.go, lines 64-105): every
snapshot endpoint that is not active, participates in failover (default
true), is not in cooldown and is healthy, in snapshot order. -/
def getFailoverEndpoints (active snapshot : List Endpoint) (now : Int) :
    List Endpoint :=
  snapshot.filter fun ep =>
    !(active.any fun a => a.config.name == ep.config.name) &&
    ep.config.failoverEnabled.getD true &&
    !(inCooldownAt ep.status now) &&
    ep.status.healthy

/-- The first filter stage of `GetHealthyEndpoints`: keep active-group
endpoints that are healthy and not in request cooldown. -/
def healthyNotCooling (now : Int) (l : List Endpoint) : List Endpoint :=
  l.filter fun e => e.status.healthy && !(inCooldownAt e.status now)

/-- Model of `GetHealthyEndpoints` (endpoint_selection.go, lines 16-60). -/
def getHealthyEndpoints (m : Manager) (now : Int) : List Endpoint :=
  let snapshot := m.endpoints
  let active := filterEndpointsByActiveGroups m.groupManager snapshot
  let healthy := healthyNotCooling now active
  if healthy.length > 0 then
    sortHealthyEndpoints m healthy
  else if !m.config.failover.enabled then
    healthy
  else
    sortHealthyEndpoints m (getFailoverEndpoints active snapshot now)

/-- The scan of `selectNextFailoverEndpoint` over the sorted snapshot:
skip the excluded name, endpoints opted out of failover, endpoints in
cooldown and unhealthy endpoints; return the first remaining name, or the
empty string. -/
def firstFailover (exclude : String) (now : Int) : List Endpoint → String
  | [] => ""
  | ep :: rest =>
    if ep.config.name == exclude then firstFailover exclude now rest
    else if !(ep.config.failoverEnabled.getD true) then
      firstFailover exclude now rest
    else if inCooldownAt ep.status now then firstFailover exclude now rest
    else if !ep.status.healthy then firstFailover exclude now rest
    else ep.config.name

/-- Model of `selectNextFailoverEndpoint` (failover.go, lines 84-131): sort the
snapshot by priority, then scan. -/
def selectNextFailoverEndpoint (m : Manager) (exclude : String) (now : Int) :
    String :=
  firstFailover exclude now (sortSlice priorityLess m.endpoints)

/-- Model of `IsEndpointInCooldown` (failover.go, lines 134-144). -/
def isEndpointInCooldown (m : Manager) (name : String) (now : Int) : Bool :=
  match getEndpointByNameAny m name with
  | none => false
  | some ep => inCooldownAt ep.status now

/-- The in-place mutation of the first endpoint with the given name that
sets its cooldown fields (`TriggerRequestFailover`, failover.go lines
42-45). -/
def setCooldownFirst (name : String) (t : Int) (reason : String) :
    List Endpoint → List Endpoint
  | [] => []
  | e :: es =>
    if e.config.name == name then
      { e with status :=
          { e.status with cooldownUntil := t, cooldownReason := reason } } :: es
    else e :: setCooldownFirst name t reason es

/-- Ten minutes in nanoseconds, the fallback cooldown. -/
def tenMinutes : Int := 600000000000

/-- The cooldown duration computed by `TriggerRequestFailover` (failover.go
lines 32-39): start from the manager default, replace a zero default by
ten minutes, then let a positive per-endpoint override win. -/
def triggerFailoverCooldown (m : Manager) (ep : Endpoint) : Int :=
  let d0 := if m.config.failover.defaultCooldown == 0 then tenMinutes
            else m.config.failover.defaultCooldown
  match ep.config.cooldown with
  | some c => if 0 < c then c else d0
  | none => d0

/-- Model of `TriggerRequestFailover` (failover.go, lines 22-80).  The Go function
mutates the manager in place and returns (new endpoint name, error); the
model returns the result together with the final manager state, so state
changes made before an error return are preserved. -/
def triggerRequestFailover (m : Manager) (failedName reason : String)
    (now : Int) : Except String String × Manager :=
  match getEndpointByNameAny m failedName with
  | none => (Except.error "endpoint does not exist", m)
  | some failedEp =>
    let d := triggerFailoverCooldown m failedEp
    let m1 := { m with
      endpoints := setCooldownFirst failedName (now + d) reason m.endpoints }
    let m2 := { m1 with
      groupManager := gmDeactivateGroup m1.groupManager failedName }
    let newName := selectNextFailoverEndpoint m2 failedName now
    if newName == "" then
      (Except.error "no failover endpoint available", m2)
    else
      match gmManualActivateGroup m2.groupManager newName with
      | Except.error e => (Except.error e, m2)
      | Except.ok gm2 => (Except.ok newName, { m2 with groupManager := gm2 })

/-- Model of `ClearEndpointCooldown` (failover.go, lines 147-161): clears both
cooldown fields of the named endpoint, but only when a cooldown time is
set; a missing endpoint or a zero cooldown time leaves everything
untouched. -/
def clearEndpointCooldown (m : Manager) (name : String) : Manager :=
  match getEndpointByNameAny m name with
  | none => m
  | some ep =>
    if ep.status.cooldownUntil == 0 then m
    else { m with endpoints := setCooldownFirst name 0 "" m.endpoints }

/-- Model of `Manager.ManualActivateGroup` (notification.go, lines 57-70): activate
via the group manager; on success clear the cooldown of the endpoint with
the group name.  Returns the result together with the final manager. -/
def managerManualActivateGroup (m : Manager) (groupName : String) :
    Except String Unit × Manager :=
  match gmManualActivateGroup m.groupManager groupName with
  | Except.error e => (Except.error e, m)
  | Except.ok gm1 =>
    (Except.ok (), clearEndpointCooldown { m with groupManager := gm1 } groupName)

/-! ## Endpoint CRUD (endpoint_crud.go) -/

/-- A fresh endpoint record: pessimistically unhealthy, never checked. -/
def mkEndpoint (cfg : EndpointConfig) (now : Int) : Endpoint :=
  { config := cfg
    status :=
      { healthy := false
        neverChecked := true
        lastCheck := now
        responseTime := 0
        consecutiveFails := 0
        cooldownUntil := 0
        cooldownReason := "" } }

/-- Model of `SyncEndpoints`: replaces the endpoint list wholesale with one fresh
endpoint per supplied config (no name deduplication). -/
def syncEndpoints (m : Manager) (configs : List EndpointConfig) (now : Int) :
    Manager :=
  { m with endpoints := configs.map fun cfg => mkEndpoint cfg now }

/-- Model of `AddEndpoint`: fails when the name already exists, otherwise appends a
fresh endpoint. -/
def addEndpoint (m : Manager) (cfg : EndpointConfig) (now : Int) :
    Except String Manager :=
  if m.endpoints.any fun ep => ep.config.name == cfg.name then
    Except.error "endpoint already exists"
  else
    Except.ok { m with endpoints := m.endpoints ++ [mkEndpoint cfg now] }

/-- Removal of the first endpoint with the given name, keeping order. -/
def removeFirstByName (name : String) : List Endpoint → Option (List Endpoint)
  | [] => none
  | e :: es =>
    if e.config.name == name then some es
    else (removeFirstByName name es).map fun es2 => e :: es2

/-- Model of `RemoveEndpoint`: fails when no endpoint has the name. -/
def removeEndpoint (m : Manager) (name : String) : Except String Manager :=
  match removeFirstByName name m.endpoints with
  | none => Except.error "endpoint not found"
  | some l => Except.ok { m with endpoints := l }

/-- Replacement of the config of the first endpoint with the given name;
the stored config keeps the original name (`cfg.Name = name`). -/
def updateFirstConfig (name : String) (cfg : EndpointConfig) :
    List Endpoint → Option (List Endpoint)
  | [] => none
  | e :: es =>
    if e.config.name == name then
      some ({ e with config := { cfg with name := name } } :: es)
    else (updateFirstConfig name cfg es).map fun es2 => e :: es2

/-- Model of `UpdateEndpointConfig`: fails when no endpoint has the name. -/
def updateEndpointConfig (m : Manager) (name : String) (cfg : EndpointConfig) :
    Except String Manager :=
  match updateFirstConfig name cfg m.endpoints with
  | none => Except.error "endpoint not found"
  | some l => Except.ok { m with endpoints := l }

/-- The name-uniqueness invariant of the registry. -/
def namesUnique (l : List Endpoint) : Prop :=
  (l.map fun e => e.config.name).Nodup

instance (l : List Endpoint) : Decidable (namesUnique l) := by
  unfold namesUnique
  infer_instance

/-! ## Helper lemmas about the sort.Slice model -/

lemma insertBy_perm {α : Type} (lt : α → α → Bool) (x : α) (l : List α) :
    List.Perm (insertBy lt x l) (x :: l) := by
  induction l with
  | nil => simp [insertBy]
  | cons y ys ih =>
    simp only [insertBy]
    by_cases h : lt x y = true
    · rw [if_pos h]
    · rw [if_neg h]
      exact (List.Perm.cons y ih).trans (List.Perm.swap x y ys)

lemma sortSlice_perm {α : Type} (lt : α → α → Bool) (l : List α) :
    List.Perm (sortSlice lt l) l := by
  have aux : ∀ (l2 acc : List α),
      List.Perm (l2.foldl (fun acc x => insertBy lt x acc) acc) (l2 ++ acc) := by
    intro l2
    induction l2 with
    | nil => intro acc; simp
    | cons x xs ih =>
      intro acc
      have step1 : List.Perm
          (xs.foldl (fun acc x => insertBy lt x acc) (insertBy lt x acc))
          (xs ++ insertBy lt x acc) := ih _
      have step2 : List.Perm (xs ++ insertBy lt x acc) (xs ++ (x :: acc)) :=
        List.Perm.append_left xs (insertBy_perm lt x acc)
      have step3 : List.Perm (xs ++ (x :: acc)) (x :: (xs ++ acc)) :=
        List.perm_middle
      exact (step1.trans step2).trans step3
  have h := aux l []
  simpa using h

lemma pairwise_insertBy {α : Type} (key : α → Int) (lt : α → α → Bool)
    (hlt : ∀ a b, lt a b = true ↔ key a < key b) (x : α) (l : List α)
    (h : l.Pairwise fun a b => key a ≤ key b) :
    (insertBy lt x l).Pairwise fun a b => key a ≤ key b := by
  induction l with
  | nil => simp [insertBy]
  | cons y ys ih =>
    rcases List.pairwise_cons.mp h with ⟨hy, hys⟩
    simp only [insertBy]
    by_cases hxy : lt x y = true
    · rw [if_pos hxy]
      have hxky : key x < key y := (hlt x y).mp hxy
      refine List.pairwise_cons.mpr ⟨?_, h⟩
      intro z hz
      rcases List.mem_cons.mp hz with rfl | hz2
      · exact le_of_lt hxky
      · exact le_trans (le_of_lt hxky) (hy z hz2)
    · rw [if_neg hxy]
      have hykx : key y ≤ key x := by
        have h2 : ¬ key x < key y := fun hc => hxy ((hlt x y).mpr hc)
        omega
      refine List.pairwise_cons.mpr ⟨?_, ih hys⟩
      intro z hz
      rcases List.mem_cons.mp ((insertBy_perm lt x ys).mem_iff.mp hz) with rfl | hz2
      · exact hykx
      · exact hy z hz2

lemma pairwise_sortSlice {α : Type} (key : α → Int) (lt : α → α → Bool)
    (hlt : ∀ a b, lt a b = true ↔ key a < key b) (l : List α) :
    (sortSlice lt l).Pairwise fun a b => key a ≤ key b := by
  have aux : ∀ (l2 acc : List α), (acc.Pairwise fun a b => key a ≤ key b) →
      ((l2.foldl (fun acc x => insertBy lt x acc) acc).Pairwise
        fun a b => key a ≤ key b) := by
    intro l2
    induction l2 with
    | nil => intro acc h; simpa using h
    | cons x xs ih =>
      intro acc h
      exact ih _ (pairwise_insertBy key lt hlt x acc h)
  exact aux l [] List.Pairwise.nil

/-! ## Helper lemmas about list updates by endpoint name -/

lemma find?_setCooldownFirst (name : String) (t : Int) (r : String)
    (l : List Endpoint) :
    ((setCooldownFirst name t r l).find? fun ep => ep.config.name == name) =
      (l.find? fun ep => ep.config.name == name).map fun e =>
        { e with status :=
            { e.status with cooldownUntil := t, cooldownReason := r } } := by
  induction l with
  | nil => rfl
  | cons e es ih =>
    by_cases h : (e.config.name == name) = true
    · simp [setCooldownFirst, List.find?_cons, h]
    · simp [setCooldownFirst, List.find?_cons, h, ih]

lemma removeFirstByName_sublist (name : String) :
    ∀ (l l2 : List Endpoint),
      removeFirstByName name l = some l2 → List.Sublist l2 l := by
  intro l
  induction l with
  | nil => intro l2 h; simp [removeFirstByName] at h
  | cons e es ih =>
    intro l2 h
    by_cases hc : (e.config.name == name) = true
    · simp [removeFirstByName, hc] at h
      subst h
      exact List.sublist_cons_self e es
    · simp [removeFirstByName, hc] at h
      rcases h with ⟨rest, hrest, hl2⟩
      subst hl2
      exact List.Sublist.cons₂ e (ih rest hrest)

lemma updateFirstConfig_map_names (name : String) (cfg : EndpointConfig) :
    ∀ (l l2 : List Endpoint),
      updateFirstConfig name cfg l = some l2 →
      (l2.map fun e => e.config.name) = l.map fun e => e.config.name := by
  intro l
  induction l with
  | nil => intro l2 h; simp [updateFirstConfig] at h
  | cons e es ih =>
    intro l2 h
    by_cases hc : (e.config.name == name) = true
    · simp [updateFirstConfig, hc] at h
      subst h
      have hen : e.config.name = name := by
        simpa using hc
      simp [hen]
    · simp [updateFirstConfig, hc] at h
      rcases h with ⟨rest, hrest, hl2⟩
      subst hl2
      simp [ih rest hrest]

lemma firstFailover_mem (exclude : String) (now : Int) :
    ∀ l : List Endpoint, firstFailover exclude now l ≠ "" →
      ∃ e, e ∈ l ∧ e.config.name = firstFailover exclude now l ∧
        e.config.failoverEnabled.getD true = true ∧
        inCooldownAt e.status now = false ∧
        e.status.healthy = true ∧ e.config.name ≠ exclude := by
  intro l
  induction l with
  | nil => intro h; simp [firstFailover] at h
  | cons ep rest ih =>
    intro h
    by_cases h1 : (ep.config.name == exclude) = true
    · rw [firstFailover, if_pos h1] at h ⊢
      rcases ih h with ⟨e, hmem, he⟩
      exact ⟨e, List.mem_cons_of_mem ep hmem, he⟩
    · rw [firstFailover, if_neg h1] at h ⊢
      by_cases h2 : (!(ep.config.failoverEnabled.getD true)) = true
      · rw [if_pos h2] at h ⊢
        rcases ih h with ⟨e, hmem, he⟩
        exact ⟨e, List.mem_cons_of_mem ep hmem, he⟩
      · rw [if_neg h2] at h ⊢
        by_cases h3 : inCooldownAt ep.status now = true
        · rw [if_pos h3] at h ⊢
          rcases ih h with ⟨e, hmem, he⟩
          exact ⟨e, List.mem_cons_of_mem ep hmem, he⟩
        · rw [if_neg h3] at h ⊢
          by_cases h4 : (!ep.status.healthy) = true
          · rw [if_pos h4] at h ⊢
            rcases ih h with ⟨e, hmem, he⟩
            exact ⟨e, List.mem_cons_of_mem ep hmem, he⟩
          · rw [if_neg h4] at h ⊢
            refine ⟨ep, List.mem_cons_self ep rest, rfl, ?_, ?_, ?_, ?_⟩
            · simpa using h2
            · simpa using h3
            · simpa using h4
            · simpa using h1

/-! ## Credential masking (key_switch.go) -/

/-- Model of `maskKey` (key_switch.go, lines 175-180). -/
def maskKey (key : String) : String :=
  if key.length ≤ 8 then "****"
  else key.take 4 ++ "****" ++ key.drop (key.length - 4)

/-! ## Concrete fixtures used by witnesses and counterexamples -/

def baseCfg (n g : String) (p : Int) : EndpointConfig :=
  { name := n, url := "", channel := "", group := g, priority := p,
    tokens := [], apiKeys := [], token := "", apiKey := "",
    failoverEnabled := none, cooldown := none }

def defaultMgrConfig : ManagerConfig :=
  { strategy := { strategyType := "priority" },
    failover := { enabled := true, defaultCooldown := 0 } }

def gmEmpty : GroupManager :=
  { groups := [], activeGroups := [], pausedGroups := [] }

def epA1 : Endpoint := mkEndpoint (baseCfg "a" "a" 1) 0

def epB1 : Endpoint := mkEndpoint (baseCfg "b" "b" 1) 0

def mgrPrio : Manager :=
  { endpoints := [], config := defaultMgrConfig, groupManager := gmEmpty }

def mgrA : Manager :=
  { endpoints := [epA1], config := defaultMgrConfig, groupManager := gmEmpty }

/-- A healthy endpoint that has opted out of failover. -/
def epNoFo : Endpoint :=
  { config := { baseCfg "c" "c" 1 with failoverEnabled := some false }
    status :=
      { healthy := true, neverChecked := false, lastCheck := 0,
        responseTime := 0, consecutiveFails := 0, cooldownUntil := 0,
        cooldownReason := "" } }

/-- A healthy failover-eligible endpoint named b with priority 2. -/
def epBh : Endpoint :=
  { config := baseCfg "b" "b" 2
    status :=
      { healthy := true, neverChecked := false, lastCheck := 0,
        responseTime := 0, consecutiveFails := 0, cooldownUntil := 0,
        cooldownReason := "" } }

def mgrFo : Manager :=
  { endpoints := [epNoFo, epBh], config := defaultMgrConfig,
    groupManager := gmEmpty }

/-- An endpoint currently in cooldown (until time 100). -/
def epCool : Endpoint :=
  { config := baseCfg "c" "c" 1
    status :=
      { healthy := true, neverChecked := false, lastCheck := 0,
        responseTime := 0, consecutiveFails := 0, cooldownUntil := 100,
        cooldownReason := "failover" } }

def mgrCool : Manager :=
  { endpoints := [epCool], config := defaultMgrConfig,
    groupManager := { groups := ["c"], activeGroups := [], pausedGroups := [] } }

/-- An endpoint with a zero cooldown time but a stale non-empty reason. -/
def epStale : Endpoint :=
  { config := baseCfg "g" "g" 1
    status :=
      { healthy := false, neverChecked := true, lastCheck := 0,
        responseTime := 0, consecutiveFails := 0, cooldownUntil := 0,
        cooldownReason := "stale" } }

def mgrStale : Manager :=
  { endpoints := [epStale], config := defaultMgrConfig,
    groupManager := { groups := ["g"], activeGroups := [], pausedGroups := [] } }

def err400 : GoError := plainErr "endpoint returned error: 400"

def err404 : GoError := plainErr "endpoint returned error: 404"

def ctxHttp : ErrorContext :=
  { requestID := "r", endpointName := "a", groupName := "g",
    attemptCount := 0, maxRetries := 3, errorType := ErrorType.http }

def ctxEof : ErrorContext :=
  { requestID := "r", endpointName := "a", groupName := "g",
    attemptCount := 0, maxRetries := 3, errorType := ErrorType.eof }

def recPending : RequestRecord :=
  { status := "pending", endpointName := "", groupName := "",
    retryCount := 0, httpStatus := 0 }

/-! ## Claim C1 -/

/-- Claim C1, counterexample: the error text "endpoint returned error: 400"
carries no rate language and no quota or throttle text, yet `ClassifyError`
classifies it RateLimit, not HTTP — the 400 substring alone triggers the
rate-limit branch, so the claim that a 400 without rate language falls
under the HTTP row is false. -/
theorem claim_C1_counterexample :
    strContains (lowerStr err400.text) "rate" = false ∧
    strContains (lowerStr err400.text) "quota" = false ∧
    strContains (lowerStr err400.text) "throttle" = false ∧
    classifyErrorType err400 = ErrorType.rateLimit ∧
    ErrorType.rateLimit ≠ ErrorType.http := by
  refine ⟨rfl, rfl, rfl, rfl, by decide⟩

/-- Claim C1, amended: for a non-nil error not matching the cancel, EOF,
timeout or network categories, any occurrence of "400" in the text sends
the error to the RateLimit branch (no rate language needed), while errors
that reach the generic HTTP branch (text mentions http, status or
"endpoint returned error", and matches none of the rate-limit, 5xx, auth
or stream patterns, in particular indicates a 4xx other than 429 and 400)
are classified HTTP; HTTP-classified contexts are never retried. -/
theorem claim_C1_amended :
    (∀ e : GoError,
      isClientCancelError e = false → isEOFError e = false →
      isConnectionTimeoutError e = false → isTimeoutError e = false →
      isNetworkError e = false →
      (strContains (lowerStr e.text) "400" = true →
        classifyErrorType e = ErrorType.rateLimit) ∧
      (rateLimitText (lowerStr e.text) = false →
       serverErrorText (lowerStr e.text) = false →
       authText (lowerStr e.text) = false →
       streamText (lowerStr e.text) = false →
       httpText (lowerStr e.text) = true →
        classifyErrorType e = ErrorType.http)) ∧
    (∀ ctx : ErrorContext, ctx.errorType = ErrorType.http →
      shouldRetry ctx = false) := by
  constructor
  · intro e h1 h2 h3 h4 h5
    constructor
    · intro h400
      have hrl : rateLimitText (lowerStr e.text) = true := by
        unfold rateLimitText
        rw [h400]
        simp
      simp [classifyErrorType, h1, h2, h3, h4, h5, hrl]
    · intro hrl hse hau hst hhttp
      simp [classifyErrorType, h1, h2, h3, h4, h5, hrl, hse, hau, hst, hhttp]
  · intro ctx h
    simp [shouldRetry, h]

/-- Claim C1, witness: the amended theorem applied at the two concrete
errors and a concrete HTTP context. -/
theorem claim_C1_witness :
    classifyErrorType err400 = ErrorType.rateLimit ∧
    classifyErrorType err404 = ErrorType.http ∧
    shouldRetry ctxHttp = false := by
  refine ⟨?_, ?_, ?_⟩
  · exact (claim_C1_amended.1 err400 rfl rfl rfl rfl rfl).1 rfl
  · exact (claim_C1_amended.1 err404 rfl rfl rfl rfl rfl).2 rfl rfl rfl rfl rfl
  · exact claim_C1_amended.2 ctxHttp rfl

/-! ## Claim C2 -/

/-- Claim C2: contexts classified EOF, ResponseTimeout, Stream, HTTP,
Auth, Unknown or ClientCancel are never retried, whatever the attempt
count; and the terminal status `HandleFinalFailure` records is given by
the stated table (EOF maps to eof_interrupted, ClientCancel to cancelled,
ResponseTimeout and Timeout to timeout, ConnectionTimeout to
connection_timeout, Auth to auth_error, RateLimit to rate_limited,
ServerError to server_error, Stream to stream_error, everything else to
error). -/
theorem claim_C2 :
    (∀ ctx : ErrorContext,
      (ctx.errorType = ErrorType.eof ∨ ctx.errorType = ErrorType.responseTimeout ∨
       ctx.errorType = ErrorType.stream ∨ ctx.errorType = ErrorType.http ∨
       ctx.errorType = ErrorType.auth ∨ ctx.errorType = ErrorType.unknown ∨
       ctx.errorType = ErrorType.clientCancel) →
      shouldRetry ctx = false) ∧
    (∀ (ctx : ErrorContext) (rec : RequestRecord), ctx.requestID ≠ "" →
      (handleFinalFailure true ctx rec).status =
        finalFailureStatus ctx.errorType) ∧
    (finalFailureStatus ErrorType.eof = "eof_interrupted" ∧
     finalFailureStatus ErrorType.clientCancel = "cancelled" ∧
     finalFailureStatus ErrorType.responseTimeout = "timeout" ∧
     finalFailureStatus ErrorType.timeout = "timeout" ∧
     finalFailureStatus ErrorType.connectionTimeout = "connection_timeout" ∧
     finalFailureStatus ErrorType.auth = "auth_error" ∧
     finalFailureStatus ErrorType.rateLimit = "rate_limited" ∧
     finalFailureStatus ErrorType.serverError = "server_error" ∧
     finalFailureStatus ErrorType.stream = "stream_error" ∧
     finalFailureStatus ErrorType.http = "error" ∧
     finalFailureStatus ErrorType.unknown = "error" ∧
     finalFailureStatus ErrorType.network = "error" ∧
     finalFailureStatus ErrorType.parsing = "error" ∧
     finalFailureStatus ErrorType.noHealthyEndpoints = "error") := by
  refine ⟨?_, ?_, ?_⟩
  · intro ctx h
    rcases h with h | h | h | h | h | h | h <;> simp [shouldRetry, h]
  · intro ctx rec hid
    simp [handleFinalFailure, hid]
  · exact ⟨rfl, rfl, rfl, rfl, rfl, rfl, rfl, rfl, rfl, rfl, rfl, rfl, rfl, rfl⟩

/-- Claim C2, witness: the theorem applied at a concrete EOF context and a
concrete pending record. -/
theorem claim_C2_witness :
    shouldRetry ctxEof = false ∧
    (handleFinalFailure true ctxEof recPending).status = "eof_interrupted" := by
  constructor
  · exact claim_C2.1 ctxEof (Or.inl rfl)
  · rw [claim_C2.2.1 ctxEof recPending (by decide)]
    rfl

/-! ## Claim C8 -/

/-- Claim C8: once the attempt count reaches the retry cap, `ShouldRetry`
is false whatever the error kind; the default manager cap is 3 and every
classified context carries the manager cap; with a cap of 0 no error is
ever retried. -/
theorem claim_C8 :
    (∀ ctx : ErrorContext, ctx.maxRetries ≤ ctx.attemptCount →
      shouldRetry ctx = false) ∧
    newErrorRecoveryManager.maxRetries = 3 ∧
    (∀ (erm : ErrorRecoveryManager) (err : Option GoError)
       (rid en gn : String) (attempt : Nat),
      (classifyError erm err rid en gn attempt).maxRetries = erm.maxRetries) ∧
    (∀ ctx : ErrorContext, ctx.maxRetries = 0 → shouldRetry ctx = false) := by
  refine ⟨?_, rfl, ?_, ?_⟩
  · intro ctx h
    simp [shouldRetry, h]
  · intro erm err rid en gn attempt
    rfl
  · intro ctx h
    simp [shouldRetry, h]

/-- A network-kind context that has reached the default cap of 3. -/
def ctxNetAtCap : ErrorContext :=
  { requestID := "r", endpointName := "a", groupName := "g",
    attemptCount := 3, maxRetries := 3, errorType := ErrorType.network }

/-- A network-kind context under a retry cap of 0. -/
def ctxNetCap0 : ErrorContext :=
  { requestID := "r", endpointName := "a", groupName := "g",
    attemptCount := 0, maxRetries := 0, errorType := ErrorType.network }

/-- Claim C8, witness: the theorem applied at a retryable-kind context at
the cap and at a cap of zero. -/
theorem claim_C8_witness :
    shouldRetry ctxNetAtCap = false ∧ shouldRetry ctxNetCap0 = false := by
  constructor
  · exact claim_C8.1 ctxNetAtCap (by decide)
  · exact claim_C8.2.2.2 ctxNetCap0 rfl

/-! ## Claim C3 -/

/-- Claim C3, counterexample: two healthy endpoints of equal priority
whose names arrive in descending order are returned in that same
descending name order by the priority sort — the comparator only looks at
priorities, so the claimed stable tie-break by ascending name does not
hold. -/
theorem claim_C3_counterexample :
    mgrPrio.config.strategy.strategyType = "priority" ∧
    epB1.config.priority = epA1.config.priority ∧
    epB1.config.name = "b" ∧ epA1.config.name = "a" ∧
    sortHealthyEndpoints mgrPrio [epB1, epA1] = [epB1, epA1] := by
  exact ⟨rfl, rfl, rfl, rfl, rfl⟩

/-- Claim C3, amended: under the priority strategy the selector sort
returns a permutation of its input that is non-decreasing in priority
(i < j implies S[i].priority ≤ S[j].priority); no name tie-break is
applied, so endpoints of equal priority appear in an order unrelated to
their names. -/
theorem claim_C3_amended :
    ∀ (m : Manager) (hs : List Endpoint),
      m.config.strategy.strategyType = "priority" →
      List.Perm (sortHealthyEndpoints m hs) hs ∧
      ∀ (i j : Fin (sortHealthyEndpoints m hs).length), i < j →
        ((sortHealthyEndpoints m hs).get i).config.priority ≤
          ((sortHealthyEndpoints m hs).get j).config.priority := by
  intro m hs h
  have hsort : sortHealthyEndpoints m hs = sortSlice priorityLess hs := by
    simp [sortHealthyEndpoints, h]
  constructor
  · rw [hsort]
    exact sortSlice_perm priorityLess hs
  · have hpw : (sortHealthyEndpoints m hs).Pairwise
        fun a b => a.config.priority ≤ b.config.priority := by
      rw [hsort]
      exact pairwise_sortSlice (fun e => e.config.priority) priorityLess
        (by intro a b; simp [priorityLess]) hs
    intro i j hij
    exact List.pairwise_iff_get.mp hpw i j hij

/-- Claim C3, witness: the amended theorem applied at the concrete
two-endpoint input. -/
theorem claim_C3_witness :
    List.Perm (sortHealthyEndpoints mgrPrio [epB1, epA1]) [epB1, epA1] :=
  (claim_C3_amended mgrPrio [epB1, epA1] rfl).1

/-! ## Claim C4 -/

/-- Claim C4: an endpoint whose failoverEnabled flag is explicitly false
never appears in the candidate list built by `getFailoverEndpoints`, and
whenever `selectNextFailoverEndpoint` returns a (non-empty) name, that
name belongs to an endpoint of the manager that did not opt out of
failover, is healthy, is not in cooldown and is not the excluded one. -/
theorem claim_C4 :
    (∀ (active snapshot : List Endpoint) (now : Int) (e : Endpoint),
      e.config.failoverEnabled = some false →
      e ∉ getFailoverEndpoints active snapshot now) ∧
    (∀ (m : Manager) (exclude : String) (now : Int),
      selectNextFailoverEndpoint m exclude now ≠ "" →
      ∃ e, e ∈ m.endpoints ∧
        e.config.name = selectNextFailoverEndpoint m exclude now ∧
        e.config.failoverEnabled ≠ some false ∧
        e.status.healthy = true ∧
        inCooldownAt e.status now = false ∧
        e.config.name ≠ exclude) := by
  constructor
  · intro active snapshot now e hfe hmem
    simp [getFailoverEndpoints, List.mem_filter, hfe] at hmem
  · intro m exclude now h
    rcases firstFailover_mem exclude now
        (sortSlice priorityLess m.endpoints) h with
      ⟨e, hmem, hname, hfo, hcool, hhealthy, hex⟩
    refine ⟨e, ?_, hname, ?_, hhealthy, hcool, hex⟩
    · exact (sortSlice_perm priorityLess m.endpoints).mem_iff.mp hmem
    · intro hc
      rw [hc] at hfo
      simp [Option.getD] at hfo

/-- Claim C4, witness: the theorem applied at a concrete snapshot holding
an opted-out endpoint and at a concrete manager whose selector skips the
opted-out endpoint and returns the failover-enabled one. -/
theorem claim_C4_witness :
    epNoFo ∉ getFailoverEndpoints [] [epNoFo] 0 ∧
    ∃ e, e ∈ mgrFo.endpoints ∧
      e.config.name = selectNextFailoverEndpoint mgrFo "a" 0 ∧
      e.config.failoverEnabled ≠ some false ∧
      e.status.healthy = true ∧
      inCooldownAt e.status 0 = false ∧
      e.config.name ≠ "a" := by
  constructor
  · exact claim_C4.1 [] [epNoFo] 0 epNoFo rfl
  · exact claim_C4.2 mgrFo "a" 0 (by decide)

/-! ## Claim C5 -/

/-- Claim C5: `IsEndpointInCooldown` reports true exactly when the named
endpoint exists and its cooldownUntil is later than the query time (the
zero time meaning no cooldown); a missing endpoint is never in cooldown;
and the first filter stage of `GetHealthyEndpoints` keeps an active-group
endpoint exactly when it is healthy and that same cooldown condition
fails. -/
theorem claim_C5 :
    (∀ (m : Manager) (name : String) (now : Int) (ep : Endpoint),
      getEndpointByNameAny m name = some ep →
      (isEndpointInCooldown m name now = true ↔
        (ep.status.cooldownUntil ≠ 0 ∧ now < ep.status.cooldownUntil))) ∧
    (∀ (m : Manager) (name : String) (now : Int),
      getEndpointByNameAny m name = none →
      isEndpointInCooldown m name now = false) ∧
    (∀ (now : Int) (l : List Endpoint) (e : Endpoint),
      e ∈ healthyNotCooling now l ↔
        (e ∈ l ∧ e.status.healthy = true ∧
          ¬(e.status.cooldownUntil ≠ 0 ∧ now < e.status.cooldownUntil))) := by
  refine ⟨?_, ?_, ?_⟩
  · intro m name now ep h
    simp [isEndpointInCooldown, h, inCooldownAt]
  · intro m name now h
    simp [isEndpointInCooldown, h]
  · intro now l e
    simp [healthyNotCooling, List.mem_filter, inCooldownAt]
    tauto

/-- Claim C5, witness: the theorem applied at a concrete manager whose
only endpoint cools down until time 100, queried at time 5. -/
theorem claim_C5_witness :
    isEndpointInCooldown mgrCool "c" 5 = true :=
  (claim_C5.1 mgrCool "c" 5 epCool rfl).mpr (by decide)

/-! ## Claim C6 -/

/-- Claim C6, counterexample: `SyncEndpoints` replaces the endpoint list
wholesale without deduplicating names, so syncing a config list that
repeats a name breaks the uniqueness invariant even from a unique starting
state — the claim that every listed operation preserves name-uniqueness is
false for `SyncEndpoints`. -/
theorem claim_C6_counterexample :
    namesUnique mgrA.endpoints ∧
    ¬ namesUnique
        (syncEndpoints mgrA [baseCfg "a" "a" 1, baseCfg "a" "a" 1] 0).endpoints := by
  constructor
  · decide
  · decide

/-- Claim C6, amended: `AddEndpoint` fails (leaving the list unchanged)
when the name already exists and otherwise preserves name-uniqueness;
`RemoveEndpoint` and `UpdateEndpointConfig` preserve name-uniqueness;
`SyncEndpoints` produces a name-unique list exactly when the supplied
config list itself has pairwise-distinct names. -/
theorem claim_C6_amended :
    (∀ (m : Manager) (cfg : EndpointConfig) (now : Int),
      (∃ ep, ep ∈ m.endpoints ∧ ep.config.name = cfg.name) →
      addEndpoint m cfg now = Except.error "endpoint already exists") ∧
    (∀ (m : Manager) (cfg : EndpointConfig) (now : Int) (m2 : Manager),
      addEndpoint m cfg now = Except.ok m2 →
      namesUnique m.endpoints → namesUnique m2.endpoints) ∧
    (∀ (m : Manager) (n : String) (m2 : Manager),
      removeEndpoint m n = Except.ok m2 →
      namesUnique m.endpoints → namesUnique m2.endpoints) ∧
    (∀ (m : Manager) (n : String) (cfg : EndpointConfig) (m2 : Manager),
      updateEndpointConfig m n cfg = Except.ok m2 →
      namesUnique m.endpoints → namesUnique m2.endpoints) ∧
    (∀ (m : Manager) (configs : List EndpointConfig) (now : Int),
      namesUnique (syncEndpoints m configs now).endpoints ↔
        (configs.map fun c => c.name).Nodup) := by
  refine ⟨?_, ?_, ?_, ?_, ?_⟩
  · intro m cfg now h
    rcases h with ⟨ep, hmem, hname⟩
    have hany : (m.endpoints.any fun ep => ep.config.name == cfg.name) = true :=
      List.any_eq_true.mpr ⟨ep, hmem, by simp [hname]⟩
    simp [addEndpoint, hany]
  · intro m cfg now m2 h hu
    unfold addEndpoint at h
    by_cases hany : (m.endpoints.any fun ep => ep.config.name == cfg.name) = true
    · rw [if_pos hany] at h
      cases h
    · rw [if_neg hany] at h
      cases h
      have hnot : cfg.name ∉ m.endpoints.map fun e => e.config.name := by
        intro hc
        rcases List.mem_map.mp hc with ⟨e, hmem, hne⟩
        exact hany (List.any_eq_true.mpr ⟨e, hmem, by simp [hne]⟩)
      have hmap : ((m.endpoints ++ [mkEndpoint cfg now]).map
          fun e => e.config.name) =
            (m.endpoints.map fun e => e.config.name) ++ [cfg.name] := by
        simp [mkEndpoint]
      unfold namesUnique
      rw [hmap, List.nodup_append]
      refine ⟨hu, List.nodup_singleton _, ?_⟩
      intro a ha hb
      rw [List.mem_singleton] at hb
      subst hb
      exact hnot ha
  · intro m n m2 h hu
    unfold removeEndpoint at h
    cases hr : removeFirstByName n m.endpoints with
    | none => rw [hr] at h; cases h
    | some l =>
      rw [hr] at h
      cases h
      exact List.Nodup.sublist
        (List.Sublist.map _ (removeFirstByName_sublist n m.endpoints l hr)) hu
  · intro m n cfg m2 h hu
    unfold updateEndpointConfig at h
    cases hr : updateFirstConfig n cfg m.endpoints with
    | none => rw [hr] at h; cases h
    | some l =>
      rw [hr] at h
      cases h
      unfold namesUnique
      rw [updateFirstConfig_map_names n cfg m.endpoints l hr]
      exact hu
  · intro m configs now
    unfold namesUnique syncEndpoints
    rw [List.map_map]
    exact Iff.rfl

/-- Claim C6, witness: the amended theorem applied at a concrete manager
that already holds an endpoint named a. -/
theorem claim_C6_witness :
    addEndpoint mgrA (baseCfg "a" "a" 1) 0 =
      Except.error "endpoint already exists" :=
  claim_C6_amended.1 mgrA (baseCfg "a" "a" 1) 0 ⟨epA1, by decide, rfl⟩

/-! ## Claim C7 -/

lemma triggerRequestFailover_endpoints (m : Manager) (n reason : String)
    (now : Int) (ep : Endpoint) (h : getEndpointByNameAny m n = some ep) :
    (triggerRequestFailover m n reason now).2.endpoints =
      setCooldownFirst n (now + triggerFailoverCooldown m ep) reason
        m.endpoints := by
  unfold triggerRequestFailover
  rw [h]
  dsimp only
  split
  · rfl
  · split <;> rfl

/-- The cooldown duration as claim C7 words it: the per-endpoint cooldown
when it is set and positive, otherwise the manager default failover
cooldown when nonzero, otherwise ten minutes.  Stated separately so the
theorem can compare the implementation against this reading. -/
def claimCooldownDuration (m : Manager) (ep : Endpoint) : Int :=
  match ep.config.cooldown with
  | some c =>
    if 0 < c then c
    else
      if m.config.failover.defaultCooldown = 0 then tenMinutes
      else m.config.failover.defaultCooldown
  | none =>
    if m.config.failover.defaultCooldown = 0 then tenMinutes
    else m.config.failover.defaultCooldown

/-- Claim C7: `TriggerRequestFailover` on an existing endpoint named n
sets that endpoint record to cooldownUntil = now + d with cooldownReason =
reason, where d is the per-endpoint cooldown when set and positive,
otherwise the manager default failover cooldown when nonzero, otherwise
ten minutes. -/
theorem claim_C7 :
    ∀ (m : Manager) (n reason : String) (now : Int) (ep : Endpoint),
      getEndpointByNameAny m n = some ep →
      getEndpointByNameAny (triggerRequestFailover m n reason now).2 n =
        some { ep with status :=
          { ep.status with
            cooldownUntil := now + claimCooldownDuration m ep
            cooldownReason := reason } } := by
  intro m n reason now ep h
  have hd : triggerFailoverCooldown m ep = claimCooldownDuration m ep := by
    unfold triggerFailoverCooldown claimCooldownDuration
    cases hc : ep.config.cooldown <;> simp [hc, beq_iff_eq]
  have hend := triggerRequestFailover_endpoints m n reason now ep h
  show ((triggerRequestFailover m n reason now).2.endpoints.find?
      fun e2 => e2.config.name == n) = _
  rw [hend, find?_setCooldownFirst]
  rw [show (m.endpoints.find? fun e2 => e2.config.name == n) = some ep from h]
  rw [hd]
  rfl

/-- Claim C7, witness: the theorem applied at a concrete manager (default
cooldown 0, no per-endpoint override), so the endpoint cools for the
ten-minute fallback. -/
theorem claim_C7_witness :
    getEndpointByNameAny (triggerRequestFailover mgrA "a" "overload" 5).2 "a" =
      some { epA1 with status :=
        { epA1.status with
            cooldownUntil := 5 + tenMinutes
            cooldownReason := "overload" } } := by
  have h := claim_C7 mgrA "a" "overload" 5 epA1 rfl
  exact h

/-! ## Claim C9 -/

/-- Claim C9: `maskKey` returns the four asterisks for keys of length at
most 8, and otherwise the first four characters, four asterisks, then the
last four characters; in particular a key of length 9 yields
take 4 ++ mask ++ drop 5. -/
theorem claim_C9 :
    ∀ k : String,
      (k.length ≤ 8 → maskKey k = "****") ∧
      (8 < k.length →
        maskKey k = k.take 4 ++ "****" ++ k.drop (k.length - 4)) ∧
      (k.length = 9 → maskKey k = k.take 4 ++ "****" ++ k.drop 5) := by
  intro k
  refine ⟨?_, ?_, ?_⟩
  · intro h
    simp [maskKey, h]
  · intro h
    rw [maskKey, if_neg (by omega)]
  · intro h
    rw [maskKey, if_neg (by omega), h]

/-- Claim C9, witness: the theorem applied at concrete keys of length 8
and 9. -/
theorem claim_C9_witness :
    maskKey "abcdefgh" = "****" ∧ maskKey "abcdefghi" = "abcd****fghi" := by
  constructor
  · exact (claim_C9 "abcdefgh").1 (by decide)
  · rw [(claim_C9 "abcdefghi").2.2 (by decide)]
    rfl

/-! ## Claim C10 -/

/-- Claim C10, counterexample: an endpoint whose cooldownUntil is already
the zero time but whose cooldownReason is a stale non-empty string keeps
that reason after a successful `ManualActivateGroup` — `ClearEndpointCooldown`
only clears the fields when cooldownUntil is nonzero, so the claim that
the reason always becomes empty is false. -/
theorem claim_C10_counterexample :
    (managerManualActivateGroup mgrStale "g").1 = Except.ok () ∧
    getEndpointByNameAny (managerManualActivateGroup mgrStale "g").2 "g" =
      some epStale ∧
    epStale.status.cooldownReason = "stale" := by
  exact ⟨rfl, rfl, rfl⟩

lemma clearEndpointCooldown_eq_of_found (m : Manager) (name : String)
    (ep : Endpoint) (h : getEndpointByNameAny m name = some ep) :
    clearEndpointCooldown m name =
      if (ep.status.cooldownUntil == 0) = true then m
      else { m with endpoints := setCooldownFirst name 0 "" m.endpoints } := by
  unfold clearEndpointCooldown
  rw [h]

/-- Claim C10, amended: when `Manager.ManualActivateGroup(n)` succeeds,
the endpoint named n (if one exists) ends with cooldownUntil zero, and
with cooldownReason empty provided a cooldown time was actually set
(a zero cooldownUntil leaves both fields untouched); when the group
activation fails, the manager — in particular every endpoint cooldown
state — is unchanged. -/
theorem claim_C10_amended :
    ∀ (m : Manager) (n : String),
      ((managerManualActivateGroup m n).1 = Except.ok () →
        ∀ ep : Endpoint, getEndpointByNameAny m n = some ep →
          ∃ ep2 : Endpoint,
            getEndpointByNameAny (managerManualActivateGroup m n).2 n =
              some ep2 ∧
            ep2.config = ep.config ∧
            ep2.status.cooldownUntil = 0 ∧
            ep2.status.cooldownReason =
              (if ep.status.cooldownUntil = 0 then ep.status.cooldownReason
               else "")) ∧
      (∀ msg : String,
        (managerManualActivateGroup m n).1 = Except.error msg →
        (managerManualActivateGroup m n).2 = m) := by
  intro m n
  cases hgm : gmManualActivateGroup m.groupManager n with
  | error e =>
    have heq : managerManualActivateGroup m n = (Except.error e, m) := by
      unfold managerManualActivateGroup
      rw [hgm]
    constructor
    · intro hok
      rw [heq] at hok
      cases hok
    · intro msg hmsg
      rw [heq]
  | ok gm1 =>
    have heq : managerManualActivateGroup m n =
        (Except.ok (),
         clearEndpointCooldown { m with groupManager := gm1 } n) := by
      unfold managerManualActivateGroup
      rw [hgm]
    constructor
    · intro _ ep hep
      have hep2 : getEndpointByNameAny { m with groupManager := gm1 } n =
          some ep := hep
      have hclear := clearEndpointCooldown_eq_of_found
        { m with groupManager := gm1 } n ep hep2
      rw [heq]
      by_cases hz : (ep.status.cooldownUntil == 0) = true
      · rw [if_pos hz] at hclear
        refine ⟨ep, ?_, rfl, by simpa using hz, ?_⟩
        · show getEndpointByNameAny
            (clearEndpointCooldown { m with groupManager := gm1 } n) n =
              some ep
          rw [hclear]
          exact hep2
        · rw [if_pos (by simpa using hz)]
      · rw [if_neg hz] at hclear
        refine ⟨{ ep with status :=
          { ep.status with cooldownUntil := 0, cooldownReason := "" } },
          ?_, rfl, rfl, ?_⟩
        · show getEndpointByNameAny
            (clearEndpointCooldown { m with groupManager := gm1 } n) n = _
          rw [hclear]
          show ((setCooldownFirst n 0 "" m.endpoints).find?
              fun e2 => e2.config.name == n) = _
          rw [find?_setCooldownFirst]
          rw [show (m.endpoints.find? fun e2 => e2.config.name == n) =
                some ep from hep]
          rfl
        · rw [if_neg (by simpa using hz)]
    · intro msg hmsg
      rw [heq] at hmsg
      cases hmsg

/-- Claim C10, witness: the amended theorem applied at a concrete manager
whose endpoint c cools down until time 100 before the activation. -/
theorem claim_C10_witness :
    ∃ ep2 : Endpoint,
      getEndpointByNameAny (managerManualActivateGroup mgrCool "c").2 "c" =
        some ep2 ∧
      ep2.config = epCool.config ∧
      ep2.status.cooldownUntil = 0 ∧
      ep2.status.cooldownReason =
        (if epCool.status.cooldownUntil = 0 then epCool.status.cooldownReason
         else "") :=
  (claim_C10_amended mgrCool "c").1 rfl epCool rfl

end CCF
